import Mathlib

/-!
Verification of the benchmark comparison-and-scoring engine
(`benchmark-suite/analyze_results.py`).

The engine compares two labeled result records across a fixed taxonomy of
metrics, produces one `Comparison` per comparable metric, and aggregates the
comparisons into a weighted overall `Verdict`.  Numeric measurements are
modelled as rationals; a subject's `metrics` mapping is an association list
looked up with a Python-style `dict.get` (first matching key, explicit
fallback value when the key is absent).
-/

namespace BenchmarkSuite

/-- One benchmarked subject's outcome: its label (the `system` field of the
input record) and its flat numeric metrics mapping. -/
structure ResultRecord where
  system : String
  metrics : List (String × ℚ)
deriving DecidableEq, Repr

/-- Python `d.get(k, fallback)`: the value stored under `k`, or `fallback`
when the key is absent. -/
def dictGet (d : List (String × ℚ)) (k : String) (fallback : ℚ) : ℚ :=
  match d.lookup k with
  | some v => v
  | none => fallback

/-- The analyzer state after `__init__`: the first record labelled
`P2pComm` and the first record labelled `MtlsComm`, each `none` when no
such record exists (Python `next((... ), None)`). -/
structure BenchmarkAnalyzer where
  sharedmem : Option ResultRecord
  with_mtls : Option ResultRecord
deriving DecidableEq, Repr

/-- Constructing the analyzer from the parsed input list
(`BenchmarkAnalyzer.__init__` after JSON loading). -/
def BenchmarkAnalyzer.ofResults (results : List ResultRecord) : BenchmarkAnalyzer :=
  { sharedmem := results.find? (fun r => r.system == "P2pComm")
    with_mtls := results.find? (fun r => r.system == "MtlsComm") }

/-- The engine's per-metric output record (`compare_metric`'s result dict). -/
structure Comparison where
  metric : String
  sharedmem : ℚ
  with_mtls : ℚ
  diff_percent : ℚ
  winner : String
deriving DecidableEq, Repr

/-- `compare_metric`: compare a single metric between the two systems.
Returns `none` when either subject record is missing or when subject A's
value (0 when absent) is 0; otherwise builds the `Comparison` with the
percent difference and the strict-inequality winner rule. -/
def compare_metric (a : BenchmarkAnalyzer) (metric_name : String)
    (higher_is_better : Bool) : Option Comparison :=
  match a.sharedmem, a.with_mtls with
  | some sm, some wm =>
    let val1 := dictGet sm.metrics metric_name 0
    let val2 := dictGet wm.metrics metric_name 0
    if val1 = 0 then none
    else
      let diff_percent := ((val2 - val1) / val1) * 100
      let winner :=
        if higher_is_better then
          if val2 > val1 then "mtls-comm" else "p2p-comm"
        else
          if val2 < val1 then "mtls-comm" else "p2p-comm"
      some { metric := metric_name, sharedmem := val1, with_mtls := val2,
             diff_percent := diff_percent, winner := winner }
  | _, _ => none

/-- The fixed metric enumeration of `generate_comparison_table`: metric name
paired with its `higher_is_better` flag, in source order (Throughput,
Latency, Resource Usage, Security, Reliability; declaration order within
each category). -/
def metricSpecs : List (String × Bool) :=
  [("votes_per_second", true), ("messages_per_second", true),
   ("bytes_per_second", true),
   ("latency_p50", false), ("latency_p95", false), ("latency_p99", false),
   ("latency_mean", false),
   ("cpu_usage_percent", false), ("memory_usage_mb", false),
   ("tls_handshake_time_us", false), ("cert_validation_time_us", false),
   ("encryption_overhead_percent", false),
   ("delivery_success_rate", true)]

/-- `generate_comparison_table`: one `compare_metric` call per entry of the
fixed enumeration, then the `None` results are dropped
(`[c for c in comparisons if c is not None]`). -/
def generate_comparison_table (a : BenchmarkAnalyzer) : List Comparison :=
  ((metricSpecs.map (fun p => compare_metric a p.1 p.2)).filterMap id)

/-- The explicit weight table of `calculate_overall_winner`. -/
def weights : List (String × ℕ) :=
  [("votes_per_second", 10), ("messages_per_second", 5),
   ("latency_p50", 10), ("latency_p95", 8), ("latency_p99", 6),
   ("cpu_usage_percent", 7), ("memory_usage_mb", 6),
   ("tls_handshake_time_us", 4), ("delivery_success_rate", 9)]

/-- The aggregator's output (`calculate_overall_winner`'s result dict). -/
structure Verdict where
  sharedmem_score : ℕ
  with_mtls_score : ℕ
  sharedmem_percentage : ℚ
  with_mtls_percentage : ℚ
  winner : String
deriving DecidableEq, Repr

/-- One step of the scoring loop in `calculate_overall_winner`: look the
metric's weight up with default 1 (`weights.get(metric, 1)`) and add it to
the winning side's score. -/
def scoreStep (acc : ℕ × ℕ) (comp : Comparison) : ℕ × ℕ :=
  let weight := (weights.lookup comp.metric).getD 1
  if comp.winner = "p2p-comm" then (acc.1 + weight, acc.2)
  else (acc.1, acc.2 + weight)

/-- The loop body of `calculate_overall_winner` factored over its comparison
list: accumulate both scores, derive the percentages (0 when the total is
0), and pick the overall winner with strict greater-than. -/
def aggregate (comps : List Comparison) : Verdict :=
  let s := comps.foldl scoreStep (0, 0)
  let total := s.1 + s.2
  { sharedmem_score := s.1
    with_mtls_score := s.2
    sharedmem_percentage := if total > 0 then ((s.1 : ℚ) / total) * 100 else 0
    with_mtls_percentage := if total > 0 then ((s.2 : ℚ) / total) * 100 else 0
    winner := if s.2 > s.1 then "mtls-comm" else "p2p-comm" }

/-- `calculate_overall_winner`: aggregate the freshly generated comparison
table into the verdict. -/
def calculate_overall_winner (a : BenchmarkAnalyzer) : Verdict :=
  aggregate (generate_comparison_table a)

/-! ### General lemmas about the engine -/

/-- Unfolding `compare_metric` when both subject records are present. -/
theorem compare_metric_eq_of_some (a : BenchmarkAnalyzer) (sm wm : ResultRecord)
    (hA : a.sharedmem = some sm) (hB : a.with_mtls = some wm) (name : String) (hib : Bool) :
    compare_metric a name hib =
      if dictGet sm.metrics name 0 = 0 then none
      else
        some { metric := name, sharedmem := dictGet sm.metrics name 0,
               with_mtls := dictGet wm.metrics name 0,
               diff_percent := ((dictGet wm.metrics name 0 - dictGet sm.metrics name 0) /
                   dictGet sm.metrics name 0) * 100,
               winner :=
                 if hib then
                   if dictGet sm.metrics name 0 < dictGet wm.metrics name 0 then "mtls-comm"
                   else "p2p-comm"
                 else
                   if dictGet wm.metrics name 0 < dictGet sm.metrics name 0 then "mtls-comm"
                   else "p2p-comm" } := by
  obtain ⟨f1, f2⟩ := a
  simp only at hA hB
  subst hA hB
  rfl

/-- `compare_metric` yields nothing when the `P2pComm` record is absent. -/
theorem compare_metric_eq_none_left (a : BenchmarkAnalyzer) (hA : a.sharedmem = none)
    (name : String) (hib : Bool) : compare_metric a name hib = none := by
  obtain ⟨f1, f2⟩ := a
  simp only at hA
  subst hA
  rfl

/-- `compare_metric` yields nothing when the `MtlsComm` record is absent. -/
theorem compare_metric_eq_none_right (a : BenchmarkAnalyzer) (hB : a.with_mtls = none)
    (name : String) (hib : Bool) : compare_metric a name hib = none := by
  obtain ⟨f1, f2⟩ := a
  simp only at hB
  subst hB
  cases f1 <;> rfl

/-- Membership in the comparison table comes from one entry of the fixed
metric enumeration. -/
theorem mem_generate_comparison_table (a : BenchmarkAnalyzer) (comp : Comparison) :
    comp ∈ generate_comparison_table a ↔
      ∃ p ∈ metricSpecs, compare_metric a p.1 p.2 = some comp := by
  simp [generate_comparison_table, List.mem_filterMap]

/-- A produced `Comparison` records the metric name it was asked about. -/
theorem compare_metric_metric (a : BenchmarkAnalyzer) (name : String) (hib : Bool)
    (comp : Comparison) (h : compare_metric a name hib = some comp) : comp.metric = name := by
  cases hA : a.sharedmem with
  | none => rw [compare_metric_eq_none_left a hA] at h; exact absurd h (by simp)
  | some sm =>
    cases hB : a.with_mtls with
    | none => rw [compare_metric_eq_none_right a hB] at h; exact absurd h (by simp)
    | some wm =>
      rw [compare_metric_eq_of_some a sm wm hA hB] at h
      split at h
      case isTrue => exact absurd h (by simp)
      case isFalse => cases h; rfl

/-- `dictGet` on a one-entry mapping, in if-then-else form (used to evaluate
the engine on concrete inputs). -/
theorem dictGet_singleton (k k' : String) (v fallback : ℚ) :
    dictGet [(k, v)] k' fallback = if k' == k then v else fallback := by
  simp only [dictGet, List.lookup]
  cases h : k' == k <;> simp [h]

/-! ### Claims -/

/-- C1, counterexample: the verdict aggregation is not restricted to metrics
with an explicit weight entry.  `bytes_per_second` has no entry in the
weight table, yet an input on which it is the only comparable metric yields
a verdict with `sharedmem_score = 1`, not 0: the comparison did contribute
to the score. -/
theorem c1_restrictive_weights_counterexample :
    (weights.lookup "bytes_per_second" = none) ∧
    generate_comparison_table (BenchmarkAnalyzer.ofResults
        [⟨"P2pComm", [("bytes_per_second", 100)]⟩, ⟨"MtlsComm", [("bytes_per_second", 50)]⟩]) =
      [⟨"bytes_per_second", 100, 50, -50, "p2p-comm"⟩] ∧
    (calculate_overall_winner (BenchmarkAnalyzer.ofResults
        [⟨"P2pComm", [("bytes_per_second", 100)]⟩,
         ⟨"MtlsComm", [("bytes_per_second", 50)]⟩])).sharedmem_score = 1 ∧
    (calculate_overall_winner (BenchmarkAnalyzer.ofResults
        [⟨"P2pComm", [("bytes_per_second", 100)]⟩,
         ⟨"MtlsComm", [("bytes_per_second", 50)]⟩])).with_mtls_score = 0 := by
  have ha : BenchmarkAnalyzer.ofResults
      [⟨"P2pComm", [("bytes_per_second", 100)]⟩, ⟨"MtlsComm", [("bytes_per_second", 50)]⟩] =
      ⟨some ⟨"P2pComm", [("bytes_per_second", 100)]⟩,
       some ⟨"MtlsComm", [("bytes_per_second", 50)]⟩⟩ := by decide
  have htable : generate_comparison_table (BenchmarkAnalyzer.ofResults
      [⟨"P2pComm", [("bytes_per_second", 100)]⟩, ⟨"MtlsComm", [("bytes_per_second", 50)]⟩]) =
      [⟨"bytes_per_second", 100, 50, -50, "p2p-comm"⟩] := by
    rw [ha]
    simp only [generate_comparison_table, metricSpecs, compare_metric]
    simp [dictGet_singleton]
    all_goals norm_num
  have hw : weights.lookup "bytes_per_second" = none := by decide
  refine ⟨hw, htable, ?_, ?_⟩ <;>
    simp [calculate_overall_winner, htable, aggregate, scoreStep, hw]

/-- C1, amended: in the verdict aggregation, every Comparison contributes to
the scores; a Comparison whose metric has no explicit entry in the weight
table contributes the default weight 1, so appending it to any Comparison
list raises `scoreA + scoreB` by exactly 1 (permissive default-weight
interpretation, `weights.get(metric, 1)`). -/
theorem c1_default_weight_contribution (comps : List Comparison) (c : Comparison)
    (h : weights.lookup c.metric = none) :
    (aggregate (comps ++ [c])).sharedmem_score + (aggregate (comps ++ [c])).with_mtls_score =
      (aggregate comps).sharedmem_score + (aggregate comps).with_mtls_score + 1 := by
  simp only [aggregate, List.foldl_append, List.foldl_cons, List.foldl_nil, scoreStep, h,
    Option.getD_none]
  split_ifs <;> simp <;> omega

/-- C1 witness: the amended statement instantiated on the unweighted metric
`bytes_per_second` appended to the empty comparison list. -/
theorem c1_default_weight_contribution_witness :
    (weights.lookup (⟨"bytes_per_second", 100, 50, -50, "p2p-comm"⟩ : Comparison).metric = none) ∧
    (aggregate ([] ++ [⟨"bytes_per_second", 100, 50, -50, "p2p-comm"⟩])).sharedmem_score +
        (aggregate ([] ++ [⟨"bytes_per_second", 100, 50, -50, "p2p-comm"⟩])).with_mtls_score =
      (aggregate []).sharedmem_score + (aggregate []).with_mtls_score + 1 := by
  have h : weights.lookup (⟨"bytes_per_second", 100, 50, -50, "p2p-comm"⟩ : Comparison).metric =
      none := by decide
  exact ⟨h, c1_default_weight_contribution [] _ h⟩

/-- C2, counterexample: an input whose `MtlsComm` record lacks the metric
`votes_per_second` still makes the engine emit a Comparison for that metric
(with subject B's value read as 0), refuting the claim that no Comparison
is emitted when subject B's metrics mapping lacks the metric name. -/
theorem c2_missing_b_counterexample :
    ((BenchmarkAnalyzer.ofResults
        [⟨"P2pComm", [("votes_per_second", 100)]⟩, ⟨"MtlsComm", []⟩]).with_mtls =
      some ⟨"MtlsComm", []⟩) ∧
    (([] : List (String × ℚ)).lookup "votes_per_second" = none) ∧
    compare_metric (BenchmarkAnalyzer.ofResults
        [⟨"P2pComm", [("votes_per_second", 100)]⟩, ⟨"MtlsComm", []⟩]) "votes_per_second" true =
      some ⟨"votes_per_second", 100, 0, -100, "p2p-comm"⟩ := by
  refine ⟨by decide, by decide, ?_⟩
  have ha : BenchmarkAnalyzer.ofResults
      [⟨"P2pComm", [("votes_per_second", 100)]⟩, ⟨"MtlsComm", []⟩] =
      ⟨some ⟨"P2pComm", [("votes_per_second", 100)]⟩, some ⟨"MtlsComm", []⟩⟩ := by decide
  rw [ha]
  simp only [compare_metric]
  norm_num [dictGet]

/-- C2, amended: a Comparison is produced for a metric exactly when both
subject records are present and subject A's value for the metric (read as 0
when absent) is nonzero; in particular, subject B's metrics mapping lacking
the metric does not suppress the Comparison — B's value is read as 0. -/
theorem c2_comparison_produced_iff (a : BenchmarkAnalyzer) (name : String) (hib : Bool) :
    (compare_metric a name hib).isSome = true ↔
      ∃ sm wm, a.sharedmem = some sm ∧ a.with_mtls = some wm ∧
        dictGet sm.metrics name 0 ≠ 0 := by
  cases hA : a.sharedmem with
  | none =>
    rw [compare_metric_eq_none_left a hA]
    simp
  | some sm =>
    cases hB : a.with_mtls with
    | none =>
      rw [compare_metric_eq_none_right a hB]
      simp [hA]
    | some wm =>
      rw [compare_metric_eq_of_some a sm wm hA hB]
      constructor
      · intro hs
        refine ⟨sm, wm, rfl, rfl, ?_⟩
        intro h0
        rw [if_pos h0] at hs
        simp at hs
      · rintro ⟨sm', wm', hsm, hwm, hne⟩
        cases hsm
        rw [if_neg hne]
        simp

/-- C3: per-metric winner rule of every produced Comparison: with
`higher_is_better` and `valueB > valueA` the winner is subject B's label
`mtls-comm`; with lower-is-better and `valueB < valueA` the winner is
`mtls-comm`; on an exact tie the winner is subject A's label `p2p-comm`. -/
theorem c3_per_metric_winner (a : BenchmarkAnalyzer) (name : String) (hib : Bool)
    (comp : Comparison) (h : compare_metric a name hib = some comp) :
    (hib = true → comp.sharedmem < comp.with_mtls → comp.winner = "mtls-comm") ∧
    (hib = false → comp.with_mtls < comp.sharedmem → comp.winner = "mtls-comm") ∧
    (comp.with_mtls = comp.sharedmem → comp.winner = "p2p-comm") := by
  cases hA : a.sharedmem with
  | none => rw [compare_metric_eq_none_left a hA] at h; exact absurd h (by simp)
  | some sm =>
    cases hB : a.with_mtls with
    | none => rw [compare_metric_eq_none_right a hB] at h; exact absurd h (by simp)
    | some wm =>
      rw [compare_metric_eq_of_some a sm wm hA hB] at h
      split at h
      case isTrue => exact absurd h (by simp)
      case isFalse =>
        cases h
        refine ⟨?_, ?_, ?_⟩
        · rintro rfl hlt
          simp only [if_true, if_pos hlt]
        · rintro rfl hlt
          simp only [Bool.false_eq_true, if_false, if_pos hlt]
        · intro heq
          simp only at heq
          cases hib
          · simp only [Bool.false_eq_true, if_false, heq, lt_irrefl, if_neg (lt_irrefl _)]
          · simp only [if_true, heq, if_neg (lt_irrefl _)]

/-- C3 witness: the winner rule instantiated on the lower-is-better metric
`latency_p50` with values 100 vs 80, where `mtls-comm` wins. -/
theorem c3_per_metric_winner_witness :
    (compare_metric ⟨some ⟨"P2pComm", [("latency_p50", 100)]⟩,
        some ⟨"MtlsComm", [("latency_p50", 80)]⟩⟩ "latency_p50" false =
      some ⟨"latency_p50", 100, 80, -20, "mtls-comm"⟩) ∧
    ((false = true →
        (⟨"latency_p50", 100, 80, -20, "mtls-comm"⟩ : Comparison).sharedmem <
          (⟨"latency_p50", 100, 80, -20, "mtls-comm"⟩ : Comparison).with_mtls →
        (⟨"latency_p50", 100, 80, -20, "mtls-comm"⟩ : Comparison).winner = "mtls-comm") ∧
     (false = false →
        (⟨"latency_p50", 100, 80, -20, "mtls-comm"⟩ : Comparison).with_mtls <
          (⟨"latency_p50", 100, 80, -20, "mtls-comm"⟩ : Comparison).sharedmem →
        (⟨"latency_p50", 100, 80, -20, "mtls-comm"⟩ : Comparison).winner = "mtls-comm") ∧
     ((⟨"latency_p50", 100, 80, -20, "mtls-comm"⟩ : Comparison).with_mtls =
          (⟨"latency_p50", 100, 80, -20, "mtls-comm"⟩ : Comparison).sharedmem →
        (⟨"latency_p50", 100, 80, -20, "mtls-comm"⟩ : Comparison).winner = "p2p-comm")) := by
  have h : compare_metric ⟨some ⟨"P2pComm", [("latency_p50", 100)]⟩,
      some ⟨"MtlsComm", [("latency_p50", 80)]⟩⟩ "latency_p50" false =
      some ⟨"latency_p50", 100, 80, -20, "mtls-comm"⟩ := by
    simp only [compare_metric]
    norm_num [dictGet]
  exact ⟨h, c3_per_metric_winner _ _ _ _ h⟩

/-- C4: overall-winner rule for every Comparison list: the Verdict's winner
is subject B's label `mtls-comm` exactly when `scoreB > scoreA`; in every
other case — including equal scores and the empty list — it is subject A's
label `p2p-comm`. -/
theorem c4_overall_winner_rule (comps : List Comparison) :
    (((aggregate comps).winner = "mtls-comm") ↔
      (aggregate comps).sharedmem_score < (aggregate comps).with_mtls_score) ∧
    (¬ (aggregate comps).sharedmem_score < (aggregate comps).with_mtls_score →
      (aggregate comps).winner = "p2p-comm") ∧
    (aggregate ([] : List Comparison)).winner = "p2p-comm" := by
  refine ⟨?_, ?_, rfl⟩
  · simp only [aggregate]
    split_ifs with h
    · exact iff_of_true rfl h
    · exact iff_of_false (by decide) h
  · simp only [aggregate]
    intro h
    split_ifs with hw
    · exact absurd hw h
    · rfl

/-- C5: round-trip consistency: every produced Comparison stores a
`diff_percent` equal to `(valueB - valueA) / valueA * 100` recomputed from
its own stored raw values. -/
theorem c5_diff_percent_roundtrip (a : BenchmarkAnalyzer) (name : String) (hib : Bool)
    (comp : Comparison) (h : compare_metric a name hib = some comp) :
    comp.diff_percent = ((comp.with_mtls - comp.sharedmem) / comp.sharedmem) * 100 := by
  cases hA : a.sharedmem with
  | none => rw [compare_metric_eq_none_left a hA] at h; exact absurd h (by simp)
  | some sm =>
    cases hB : a.with_mtls with
    | none => rw [compare_metric_eq_none_right a hB] at h; exact absurd h (by simp)
    | some wm =>
      rw [compare_metric_eq_of_some a sm wm hA hB] at h
      split at h
      case isTrue => exact absurd h (by simp)
      case isFalse => cases h; rfl

/-- C5 witness: the round-trip equation instantiated on `votes_per_second`
with values 200 vs 250 (percent difference 25). -/
theorem c5_diff_percent_roundtrip_witness :
    (compare_metric ⟨some ⟨"P2pComm", [("votes_per_second", 200)]⟩,
        some ⟨"MtlsComm", [("votes_per_second", 250)]⟩⟩ "votes_per_second" true =
      some ⟨"votes_per_second", 200, 250, 25, "mtls-comm"⟩) ∧
    (⟨"votes_per_second", 200, 250, 25, "mtls-comm"⟩ : Comparison).diff_percent =
      (((⟨"votes_per_second", 200, 250, 25, "mtls-comm"⟩ : Comparison).with_mtls -
          (⟨"votes_per_second", 200, 250, 25, "mtls-comm"⟩ : Comparison).sharedmem) /
        (⟨"votes_per_second", 200, 250, 25, "mtls-comm"⟩ : Comparison).sharedmem) * 100 := by
  have h : compare_metric ⟨some ⟨"P2pComm", [("votes_per_second", 200)]⟩,
      some ⟨"MtlsComm", [("votes_per_second", 250)]⟩⟩ "votes_per_second" true =
      some ⟨"votes_per_second", 200, 250, 25, "mtls-comm"⟩ := by
    simp only [compare_metric]
    norm_num [dictGet]
  exact ⟨h, c5_diff_percent_roundtrip _ _ _ _ h⟩

/-- C6: zero-denominator exclusion: a metric whose value for subject A is 0
(also when absent, since absence is read as 0) produces no Comparison for
any polarity and never appears in the engine's comparison table. -/
theorem c6_zero_denominator_excluded (a : BenchmarkAnalyzer) (sm : ResultRecord)
    (hA : a.sharedmem = some sm) (name : String) (h0 : dictGet sm.metrics name 0 = 0) :
    (∀ hib : Bool, compare_metric a name hib = none) ∧
    (∀ comp ∈ generate_comparison_table a, comp.metric ≠ name) := by
  have key : ∀ hib : Bool, compare_metric a name hib = none := by
    intro hib
    cases hB : a.with_mtls with
    | none => exact compare_metric_eq_none_right a hB name hib
    | some wm =>
      rw [compare_metric_eq_of_some a sm wm hA hB, if_pos h0]
  refine ⟨key, ?_⟩
  intro comp hmem heq
  rw [mem_generate_comparison_table] at hmem
  obtain ⟨p, _, hcm⟩ := hmem
  have hname : comp.metric = p.1 := compare_metric_metric a p.1 p.2 comp hcm
  rw [heq] at hname
  rw [← hname] at hcm
  rw [key p.2] at hcm
  exact Option.noConfusion hcm

/-- C6 witness: the exclusion instantiated on `votes_per_second` reported as
0 by subject A and 500 by subject B. -/
theorem c6_zero_denominator_excluded_witness :
    ((BenchmarkAnalyzer.ofResults
        [⟨"P2pComm", [("votes_per_second", 0)]⟩,
         ⟨"MtlsComm", [("votes_per_second", 500)]⟩]).sharedmem =
      some ⟨"P2pComm", [("votes_per_second", 0)]⟩) ∧
    (dictGet [("votes_per_second", 0)] "votes_per_second" 0 = 0) ∧
    (∀ hib : Bool, compare_metric (BenchmarkAnalyzer.ofResults
        [⟨"P2pComm", [("votes_per_second", 0)]⟩,
         ⟨"MtlsComm", [("votes_per_second", 500)]⟩]) "votes_per_second" hib = none) ∧
    (∀ comp ∈ generate_comparison_table (BenchmarkAnalyzer.ofResults
        [⟨"P2pComm", [("votes_per_second", 0)]⟩,
         ⟨"MtlsComm", [("votes_per_second", 500)]⟩]), comp.metric ≠ "votes_per_second") := by
  have h1 : (BenchmarkAnalyzer.ofResults
      [⟨"P2pComm", [("votes_per_second", 0)]⟩,
       ⟨"MtlsComm", [("votes_per_second", 500)]⟩]).sharedmem =
      some ⟨"P2pComm", [("votes_per_second", 0)]⟩ := by decide
  have h2 : dictGet [("votes_per_second", 0)] "votes_per_second" 0 = 0 := by decide
  have h3 := c6_zero_denominator_excluded _ _ h1 "votes_per_second" h2
  exact ⟨h1, h2, h3.1, h3.2⟩

/-- C7: when one or both configured subject labels are absent from the input
set, the engine returns the empty comparison sequence (and, being a total
function, raises no error). -/
theorem c7_missing_subject_empty (results : List ResultRecord)
    (h : results.find? (fun r => r.system == "P2pComm") = none ∨
         results.find? (fun r => r.system == "MtlsComm") = none) :
    generate_comparison_table (BenchmarkAnalyzer.ofResults results) = [] := by
  have key : ∀ (name : String) (hib : Bool),
      compare_metric (BenchmarkAnalyzer.ofResults results) name hib = none := by
    rcases h with h | h
    · exact fun name hib => compare_metric_eq_none_left _ h name hib
    · exact fun name hib => compare_metric_eq_none_right _ h name hib
  simp [generate_comparison_table, key]

/-- C7 witness: an input set containing only the `P2pComm` record yields the
empty comparison sequence. -/
theorem c7_missing_subject_empty_witness :
    (([⟨"P2pComm", [("votes_per_second", 5)]⟩] : List ResultRecord).find?
        (fun r => r.system == "MtlsComm") = none) ∧
    generate_comparison_table (BenchmarkAnalyzer.ofResults
        [⟨"P2pComm", [("votes_per_second", 5)]⟩]) = [] := by
  have h : ([⟨"P2pComm", [("votes_per_second", 5)]⟩] : List ResultRecord).find?
      (fun r => r.system == "MtlsComm") = none := by decide
  exact ⟨h, c7_missing_subject_empty _ (Or.inr h)⟩

/-- C8: missing-metric default: when both records are present, subject A's
value for a metric is positive and subject B's mapping lacks the metric,
`compare_metric` still produces a Comparison, with subject B's value read
as 0 and percent difference −100 (winner by the strict rule: `p2p-comm`
when higher is better, `mtls-comm` when lower is better). -/
theorem c8_missing_metric_default (a : BenchmarkAnalyzer) (sm wm : ResultRecord)
    (hA : a.sharedmem = some sm) (hB : a.with_mtls = some wm) (name : String) (hib : Bool)
    (hpos : 0 < dictGet sm.metrics name 0) (habs : wm.metrics.lookup name = none) :
    compare_metric a name hib =
      some { metric := name, sharedmem := dictGet sm.metrics name 0, with_mtls := 0,
             diff_percent := -100,
             winner := if hib then "p2p-comm" else "mtls-comm" } := by
  have hv2 : dictGet wm.metrics name 0 = 0 := by
    simp [dictGet, habs]
  have hne : dictGet sm.metrics name 0 ≠ 0 := ne_of_gt hpos
  rw [compare_metric_eq_of_some a sm wm hA hB, if_neg hne, hv2]
  have hdiff : ((0 - dictGet sm.metrics name 0) / dictGet sm.metrics name 0) * 100 = -100 := by
    rw [zero_sub, neg_div, div_self hne]
    norm_num
  rw [hdiff]
  cases hib
  · simp [not_lt.mpr hpos.le, hpos]
  · simp [not_lt.mpr hpos.le]

/-- C8 witness: `latency_mean` present for subject A (40) and absent for
subject B, yielding a Comparison with B read as 0 and −100 percent. -/
theorem c8_missing_metric_default_witness :
    ((BenchmarkAnalyzer.ofResults
        [⟨"P2pComm", [("latency_mean", 40)]⟩, ⟨"MtlsComm", [("latency_p50", 7)]⟩]).sharedmem =
      some ⟨"P2pComm", [("latency_mean", 40)]⟩) ∧
    ((BenchmarkAnalyzer.ofResults
        [⟨"P2pComm", [("latency_mean", 40)]⟩, ⟨"MtlsComm", [("latency_p50", 7)]⟩]).with_mtls =
      some ⟨"MtlsComm", [("latency_p50", 7)]⟩) ∧
    (0 < dictGet [("latency_mean", 40)] "latency_mean" 0) ∧
    (([("latency_p50", (7 : ℚ))]).lookup "latency_mean" = none) ∧
    compare_metric (BenchmarkAnalyzer.ofResults
        [⟨"P2pComm", [("latency_mean", 40)]⟩, ⟨"MtlsComm", [("latency_p50", 7)]⟩])
        "latency_mean" false =
      some { metric := "latency_mean", sharedmem := dictGet [("latency_mean", 40)] "latency_mean" 0,
             with_mtls := 0, diff_percent := -100,
             winner := if false then "p2p-comm" else "mtls-comm" } := by
  have h1 : (BenchmarkAnalyzer.ofResults
      [⟨"P2pComm", [("latency_mean", 40)]⟩, ⟨"MtlsComm", [("latency_p50", 7)]⟩]).sharedmem =
      some ⟨"P2pComm", [("latency_mean", 40)]⟩ := by decide
  have h2 : (BenchmarkAnalyzer.ofResults
      [⟨"P2pComm", [("latency_mean", 40)]⟩, ⟨"MtlsComm", [("latency_p50", 7)]⟩]).with_mtls =
      some ⟨"MtlsComm", [("latency_p50", 7)]⟩ := by decide
  have h3 : 0 < dictGet [("latency_mean", 40)] "latency_mean" 0 := by decide
  have h4 : ([("latency_p50", (7 : ℚ))]).lookup "latency_mean" = none := by decide
  exact ⟨h1, h2, h3, h4, c8_missing_metric_default _ _ _ h1 h2 "latency_mean" false h3 h4⟩

/-- C9: output ordering: for every analyzer state — hence independently of
the order of metrics inside the input records — the sequence of metric
names in the engine's comparison table is a sublist of the fixed metric
enumeration, so the output follows the enumeration order. -/
theorem c9_output_order (a : BenchmarkAnalyzer) :
    ((generate_comparison_table a).map Comparison.metric).Sublist
      (metricSpecs.map Prod.fst) := by
  suffices key : ∀ l : List (String × Bool),
      (((l.map (fun p => compare_metric a p.1 p.2)).filterMap id).map Comparison.metric).Sublist
        (l.map Prod.fst) from key metricSpecs
  intro l
  induction l with
  | nil => simp
  | cons p l ih =>
    simp only [List.map_cons, List.filterMap_cons]
    cases hc : compare_metric a p.1 p.2 with
    | none =>
      simp only [id]
      exact ih.cons p.1
    | some c =>
      simp only [id, List.map_cons]
      rw [compare_metric_metric a p.1 p.2 c hc]
      exact ih.cons₂ p.1

/-- C10: every Comparison in the engine's output carries one of the two
fixed winner labels `p2p-comm` and `mtls-comm`, whatever the input records
contain. -/
theorem c10_winner_labels (a : BenchmarkAnalyzer) (comp : Comparison)
    (h : comp ∈ generate_comparison_table a) :
    comp.winner = "p2p-comm" ∨ comp.winner = "mtls-comm" := by
  rw [mem_generate_comparison_table] at h
  obtain ⟨p, _, hcm⟩ := h
  cases hA : a.sharedmem with
  | none => rw [compare_metric_eq_none_left a hA] at hcm; exact absurd hcm (by simp)
  | some sm =>
    cases hB : a.with_mtls with
    | none => rw [compare_metric_eq_none_right a hB] at hcm; exact absurd hcm (by simp)
    | some wm =>
      rw [compare_metric_eq_of_some a sm wm hA hB] at hcm
      split at hcm
      case isTrue => exact absurd hcm (by simp)
      case isFalse =>
        cases hcm
        simp only
        cases p.2 <;> simp <;> exact le_or_lt _ _

/-- C10 witness: the label invariant instantiated on the one-element table
of a `latency_p50`-only input. -/
theorem c10_winner_labels_witness :
    ((⟨"latency_p50", 100, 80, -20, "mtls-comm"⟩ : Comparison) ∈
      generate_comparison_table ⟨some ⟨"P2pComm", [("latency_p50", 100)]⟩,
        some ⟨"MtlsComm", [("latency_p50", 80)]⟩⟩) ∧
    ((⟨"latency_p50", 100, 80, -20, "mtls-comm"⟩ : Comparison).winner = "p2p-comm" ∨
     (⟨"latency_p50", 100, 80, -20, "mtls-comm"⟩ : Comparison).winner = "mtls-comm") := by
  have htable : generate_comparison_table ⟨some ⟨"P2pComm", [("latency_p50", 100)]⟩,
      some ⟨"MtlsComm", [("latency_p50", 80)]⟩⟩ =
      [⟨"latency_p50", 100, 80, -20, "mtls-comm"⟩] := by
    simp only [generate_comparison_table, metricSpecs, compare_metric]
    simp [dictGet_singleton]
    all_goals norm_num
  have hmem : (⟨"latency_p50", 100, 80, -20, "mtls-comm"⟩ : Comparison) ∈
      generate_comparison_table ⟨some ⟨"P2pComm", [("latency_p50", 100)]⟩,
        some ⟨"MtlsComm", [("latency_p50", 80)]⟩⟩ := by
    rw [htable]
    exact List.mem_singleton.mpr rfl
  exact ⟨hmem, c10_winner_labels _ _ hmem⟩

end BenchmarkSuite
